import Mathlib

/-!
Verification of the Opportunity Repository core of `heatmap.py`.

The Python source is shallowly embedded below.  Numbers that the source
manipulates as floats with one decimal of precision are modelled as
rationals `ℚ`; Python's `round(x, 1)` (and numpy's `.round(1)`) round half
to even, which is modelled exactly by `roundHalfEven`/`round1`.

The embedding covers:
* `compute_score` (heatmap.py lines 107-110);
* `refresh_data` (lines 192-197) on a record-list model, where
  `df.sort_values(by="Score", ascending=False)` is modelled the way pandas'
  `nargsort` computes it: reverse the rows, run a stable ascending sort
  (numpy's argsort kernel is stable here), and reverse the result — a
  descending sort that preserves the relative order of equal keys;
* `load_data` (lines 126-162) on a column-oriented table model;
* `create_backup` and its retention pruning (lines 112-124) on a
  file-system model of the backup folder;
* the settings-page restore / upload-restore / reset flows
  (lines 1134-1148, 1169-1194, 1212-1226) and `save_data` (lines 164-190)
  on a combined session-state model.
-/

namespace Heatmap

/-- Round half to even, the rounding used by Python's builtin `round` and by
numpy/pandas `.round`. -/
def roundHalfEven (q : ℚ) : ℤ :=
  let f := ⌊q⌋
  let r := q - f
  if r < 1/2 then f
  else if 1/2 < r then f + 1
  else if f % 2 = 0 then f else f + 1

/-- `round(x, 1)`: round to one decimal, halves to even. -/
def round1 (q : ℚ) : ℚ := (roundHalfEven (10 * q) : ℚ) / 10

/-- heatmap.py lines 107-110:
`return round((impact + (10 - complexity)) / 2, 1)`. -/
def compute_score (impact complexity : ℚ) : ℚ :=
  round1 ((impact + (10 - complexity)) / 2)

theorem roundHalfEven_nonneg (q : ℚ) (h0 : 0 ≤ q) : 0 ≤ roundHalfEven q := by
  have hf : (0:ℤ) ≤ ⌊q⌋ := Int.floor_nonneg.mpr h0
  unfold roundHalfEven
  dsimp only
  split
  · exact hf
  · split
    · omega
    · split
      · exact hf
      · omega

theorem roundHalfEven_le (q : ℚ) (n : ℤ) (h1 : q ≤ (n:ℚ)) :
    roundHalfEven q ≤ n := by
  have hf : ⌊q⌋ ≤ n := by
    have := Int.floor_le_floor h1
    simpa using this
  have hfq : (⌊q⌋:ℚ) ≤ q := Int.floor_le q
  unfold roundHalfEven
  dsimp only
  split
  · exact hf
  · rename_i hlt
    push_neg at hlt
    split
    · rename_i hgt
      -- q - ⌊q⌋ > 1/2, so (⌊q⌋:ℚ) < n - 1/2, hence ⌊q⌋ + 1 ≤ n
      have : (⌊q⌋:ℚ) + 1/2 < (n:ℚ) := by linarith
      have hlt' : (⌊q⌋:ℚ) < (n:ℚ) := by linarith
      have : ⌊q⌋ < n := by exact_mod_cast hlt'
      omega
    · rename_i hgt
      push_neg at hgt
      have heq : q - ⌊q⌋ = 1/2 := le_antisymm hgt hlt
      have : (⌊q⌋:ℚ) + 1/2 ≤ (n:ℚ) := by linarith
      have hlt' : (⌊q⌋:ℚ) < (n:ℚ) := by linarith
      have hn : ⌊q⌋ < n := by exact_mod_cast hlt'
      split
      · exact hf
      · omega

/-- C1: for every impact `i ∈ [0,10]` and complexity `c ∈ [0,10]`,
`compute_score i c` equals `round((i + (10 - c)) / 2, 1)`, the result lies in
`[0,10]`, and the function is deterministic (equal inputs give equal
outputs; as a pure Lean function it has no side effects). -/
theorem compute_score_spec (i c : ℚ)
    (hi0 : 0 ≤ i) (hi1 : i ≤ 10) (hc0 : 0 ≤ c) (hc1 : c ≤ 10) :
    compute_score i c = round1 ((i + (10 - c)) / 2) ∧
    0 ≤ compute_score i c ∧ compute_score i c ≤ 10 ∧
    ∀ i' c', i' = i → c' = c → compute_score i' c' = compute_score i c := by
  refine ⟨rfl, ?_, ?_, ?_⟩
  · have h0 : 0 ≤ 10 * ((i + (10 - c)) / 2) := by linarith
    have := roundHalfEven_nonneg (10 * ((i + (10 - c)) / 2)) h0
    have hcast : (0:ℚ) ≤ (roundHalfEven (10 * ((i + (10 - c)) / 2)) : ℚ) := by
      exact_mod_cast this
    unfold compute_score round1
    positivity
  · have h1 : 10 * ((i + (10 - c)) / 2) ≤ ((100:ℤ):ℚ) := by push_cast; linarith
    have := roundHalfEven_le (10 * ((i + (10 - c)) / 2)) 100 h1
    have hcast : (roundHalfEven (10 * ((i + (10 - c)) / 2)) : ℚ) ≤ 100 := by
      exact_mod_cast this
    unfold compute_score round1
    linarith
  · intro i' c' hi hc
    rw [hi, hc]

/-- Witness for C1 at the spec's own scenario: impact 8, complexity 3. -/
theorem compute_score_spec_witness :
    compute_score 8 3 = round1 ((8 + (10 - 3)) / 2) ∧
    0 ≤ compute_score 8 3 ∧ compute_score 8 3 ≤ 10 ∧
    compute_score 8 3 = compute_score 8 3 := by
  have h := compute_score_spec 8 3 (by norm_num) (by norm_num) (by norm_num) (by norm_num)
  exact ⟨h.1, h.2.1, h.2.2.1, h.2.2.2 8 3 rfl rfl⟩

/-! ## Records and `refresh_data` -/

/-- One opportunity record, with the fields of the `new_row` dict built at
heatmap.py lines 425-439 (the `UUID` tracking field is omitted: it is not in
`COLUMNS` and plays no role in the claims below).  `Impact`, `Complexity`
and `Score` are one-decimal floats, modelled as rationals. -/
structure Record where
  id : Int
  opportunity : String
  relatedTo : String
  area : String
  rtype : String
  topic : String
  impact : ℚ
  complexity : ℚ
  score : ℚ
  status : String
  created : String
  modified : String
deriving DecidableEq, Repr

/-- Generic insertion: place `a` in front of the first element `b` with
`p a b = true`.  Instantiated below to model sorting. -/
def insertBy (p : α → α → Bool) (a : α) : List α → List α
  | [] => [a]
  | b :: l => if p a b then a :: b :: l else b :: insertBy p a l

/-- Generic stable insertion sort. -/
def sortBy (p : α → α → Bool) : List α → List α
  | [] => []
  | a :: l => insertBy p a (sortBy p l)

theorem insertBy_perm (p : α → α → Bool) (a : α) (l : List α) :
    (insertBy p a l).Perm (a :: l) := by
  induction l with
  | nil => exact List.Perm.refl _
  | cons b bs ih =>
    unfold insertBy
    split
    · exact List.Perm.refl _
    · exact (ih.cons b).trans (List.Perm.swap a b bs)

theorem sortBy_perm (p : α → α → Bool) (l : List α) : (sortBy p l).Perm l := by
  induction l with
  | nil => exact List.Perm.refl _
  | cons a as ih => exact (insertBy_perm p a (sortBy p as)).trans (ih.cons a)

/-- The comparison used by the ascending argsort on the `Score` column. -/
def scoreLe (a b : Record) : Bool := a.score ≤ b.score

/-- `df["ID"] = range(1, len(df) + 1)` together with
`df["Modified"] = <now>` (heatmap.py lines 195-196), applied positionally. -/
def assignIds (now : String) (i : Int) : List Record → List Record
  | [] => []
  | r :: rs => { r with id := i, modified := now } :: assignIds now (i + 1) rs

/-- The descending sort of `df.sort_values(by="Score", ascending=False)`,
embedded the way pandas' `nargsort` computes it: the rows are reversed, a
stable ascending argsort runs (numpy's kernel is stable here — insertion
sort for short arrays), and the resulting indexer is reversed again.  The
double reversal makes the net sort descending while preserving the relative
order of equal-Score rows. -/
def sortValuesDesc (l : List Record) : List Record :=
  (sortBy scoreLe l.reverse).reverse

/-- heatmap.py lines 192-197: sort by `Score` descending (tie-preserving,
see `sortValuesDesc`), then assign IDs `1..N` by position and set
`Modified` to the current timestamp `now` on every record. -/
def refresh_data (now : String) (l : List Record) : List Record :=
  assignIds now 1 (sortValuesDesc l)

theorem assignIds_length (now : String) (i : Int) (l : List Record) :
    (assignIds now i l).length = l.length := by
  induction l generalizing i with
  | nil => rfl
  | cons r rs ih => simp [assignIds, ih]

theorem assignIds_map_score (now : String) (i : Int) (l : List Record) :
    (assignIds now i l).map (fun r => r.score) = l.map (fun r => r.score) := by
  induction l generalizing i with
  | nil => rfl
  | cons r rs ih => simp [assignIds, ih]

/-- A concrete record with the given opportunity text and score, used by
witnesses and counterexamples. -/
def mkRec (op : String) (sc : ℚ) : Record :=
  { id := 0, opportunity := op, relatedTo := "", area := "", rtype := "Enabler",
    topic := "", impact := 5, complexity := 5, score := sc, status := "Idea",
    created := "t0", modified := "t0" }

inductive Cell
  | num (q : ℚ)
  | str (s : String)
  | null
deriving DecidableEq, Repr

structure Table where
  cols : List String
  rows : List (String → Cell)

/-- heatmap.py lines 21-24. -/
def COLUMNS : List String :=
  ["ID", "Opportunity", "Related to", "Area", "Type", "Topic",
   "Impact", "Complexity", "Score", "Status", "Created", "Modified"]

/-- heatmap.py line 25. -/
def STATUS_OPTIONS : List String :=
  ["Idea", "To explore", "Validated", "In development", "Deployed"]

/-- heatmap.py line 26. -/
def TYPE_OPTIONS : List String := ["Enabler", "Lever"]

/-- The value a missing column is created with (heatmap.py lines 132-137):
current timestamp for `Created`/`Modified`, `None` otherwise. -/
def rawDefault (now : String) (col : String) : Cell :=
  if col = "Created" ∨ col = "Modified" then Cell.str now else Cell.null

/-- One iteration of the `for col in COLUMNS` loop at lines 132-137. -/
def ensureCol (now : String) (col : String) (t : Table) : Table :=
  if col ∈ t.cols then t
  else { cols := t.cols ++ [col],
         rows := t.rows.map fun r c => if c = col then rawDefault now col else r c }

/-- The whole `for col in COLUMNS` loop. -/
def ensureCols (now : String) : List String → Table → Table
  | [], t => t
  | c :: cs, t => ensureCols now cs (ensureCol now c t)

/-- `pd.to_numeric(x, errors="coerce").round(1)` on one cell: floats are
rounded to one decimal, non-numeric text and missing values become `NaN`. -/
def coerceCell : Cell → Cell
  | Cell.num q => Cell.num (round1 q)
  | Cell.str _ => Cell.null
  | Cell.null => Cell.null

/-- One iteration of `for col in ["Impact", "Complexity", "Score"]`
(lines 140-141). -/
def numCoerceCol (col : String) (t : Table) : Table :=
  { t with rows := t.rows.map fun r c => if c = col then coerceCell (r c) else r c }

/-- The `df.fillna({...})` dict at lines 144-155.  `Created`/`Modified` have
no entry there. -/
def fillnaDefault (col : String) : Option Cell :=
  if col = "ID" then some (Cell.num 0)
  else if col = "Opportunity" then some (Cell.str "")
  else if col = "Related to" then some (Cell.str "")
  else if col = "Area" then some (Cell.str "")
  else if col = "Type" then some (Cell.str (TYPE_OPTIONS.getD 0 ""))
  else if col = "Topic" then some (Cell.str "")
  else if col = "Impact" then some (Cell.num 5)
  else if col = "Complexity" then some (Cell.num 5)
  else if col = "Score" then some (Cell.num 5)
  else if col = "Status" then some (Cell.str (STATUS_OPTIONS.getD 0 ""))
  else none

def fillCell (col : String) (v : Cell) : Cell :=
  match fillnaDefault col with
  | some d => if v = Cell.null then d else v
  | none => v

/-- `df.fillna({...})`: replaces missing values in the listed columns that
are present in the frame. -/
def fillna (t : Table) : Table :=
  { t with rows := t.rows.map fun r c => if c ∈ t.cols then fillCell c (r c) else r c }

/-- heatmap.py lines 126-157, the branch in which the data file exists and
parses: ensure all declared columns exist, coerce the three numeric columns,
then fill missing values. -/
def load_data (now : String) (t : Table) : Table :=
  fillna (numCoerceCol "Score" (numCoerceCol "Complexity"
    (numCoerceCol "Impact" (ensureCols now COLUMNS t))))

theorem ensureCols_cols (now : String) (cs : List String) (t : Table)
    (h : cs.Nodup) :
    (ensureCols now cs t).cols =
      t.cols ++ cs.filter (fun c => decide (¬ c ∈ t.cols)) := by
  induction cs generalizing t with
  | nil => simp [ensureCols]
  | cons c cs ih =>
    rcases h with _ | ⟨hc, hcs⟩
    unfold ensureCols ensureCol
    split
    · rename_i hmem
      rw [ih t hcs]
      congr 1
      rw [List.filter_cons]
      simp [hmem]
    · rename_i hmem
      rw [ih _ hcs]
      simp only [List.filter_cons]
      rw [if_pos (by simpa using hmem)]
      have hfeq : (cs.filter fun x => decide (¬ x ∈ t.cols ++ [c])) =
          (cs.filter fun x => decide (¬ x ∈ t.cols)) := by
        refine List.filter_congr ?_
        intro x hx
        have hxc : x ≠ c := fun he => (hc x hx) he.symm
        simp [List.mem_append, hxc]
      rw [hfeq]
      simp

theorem ensureCols_rows (now : String) (cs : List String) (t : Table) :
    (ensureCols now cs t).rows =
      t.rows.map fun r c => if (¬ c ∈ t.cols) ∧ c ∈ cs then rawDefault now c else r c := by
  induction cs generalizing t with
  | nil =>
    simp only [ensureCols]
    conv_lhs => rw [← List.map_id t.rows]
    refine List.map_congr_left ?_
    intro r _
    funext c
    simp
  | cons c cs ih =>
    unfold ensureCols ensureCol
    split
    · rename_i hmem
      rw [ih t]
      refine List.map_congr_left ?_
      intro r _
      funext c'
      by_cases he : c' = c
      · subst he
        simp [hmem]
      · simp [he, List.mem_cons]
    · rename_i hmem
      rw [ih _]
      simp only [List.map_map]
      refine List.map_congr_left ?_
      intro r _
      funext c'
      simp only [Function.comp_apply]
      by_cases he : c' = c
      · subst he
        simp [hmem]
      · simp [he, List.mem_append, List.mem_cons]

/-- Closed form (proved below, `load_data_rows`) of what `load_data` does to
one cell of one row, given the set `cols0` of columns originally present. -/
def loadCell (cols0 : List String) (now : String) (r : String → Cell)
    (c : String) : Cell :=
  let v1 := if (¬ c ∈ cols0) ∧ c ∈ COLUMNS then rawDefault now c else r c
  let v2 := if c = "Impact" ∨ c = "Complexity" ∨ c = "Score" then coerceCell v1 else v1
  if c ∈ cols0 ++ COLUMNS.filter (fun x => decide (¬ x ∈ cols0)) then fillCell c v2 else v2

theorem fillna_cols (t : Table) : (fillna t).cols = t.cols := rfl

theorem fillna_rows (t : Table) :
    (fillna t).rows =
      t.rows.map fun r c => if c ∈ t.cols then fillCell c (r c) else r c := rfl

theorem numCoerceCol_cols (col : String) (t : Table) :
    (numCoerceCol col t).cols = t.cols := rfl

theorem numCoerceCol_rows (col : String) (t : Table) :
    (numCoerceCol col t).rows =
      t.rows.map fun r c => if c = col then coerceCell (r c) else r c := rfl

theorem load_data_cols (now : String) (t : Table) :
    (load_data now t).cols =
      t.cols ++ COLUMNS.filter (fun c => decide (¬ c ∈ t.cols)) := by
  unfold load_data
  rw [fillna_cols, numCoerceCol_cols, numCoerceCol_cols, numCoerceCol_cols]
  exact ensureCols_cols now COLUMNS t (by decide)

theorem load_data_rows (now : String) (t : Table) :
    (load_data now t).rows = t.rows.map (loadCell t.cols now) := by
  unfold load_data
  rw [fillna_rows, numCoerceCol_cols, numCoerceCol_cols, numCoerceCol_cols,
    ensureCols_cols now COLUMNS t (by decide),
    numCoerceCol_rows, numCoerceCol_rows, numCoerceCol_rows, ensureCols_rows,
    List.map_map, List.map_map, List.map_map, List.map_map]
  refine List.map_congr_left ?_
  intro r _
  funext c
  simp only [Function.comp_apply, loadCell]
  by_cases h1 : c = "Impact"
  · subst h1
    simp
  · by_cases h2 : c = "Complexity"
    · subst h2
      simp
    · by_cases h3 : c = "Score"
      · subst h3
        simp
      · simp [h1, h2, h3]

/-- The value a column that was entirely missing from the input ends up
with after `load_data`: `ID` becomes `0`, the three numeric columns become
`5.0`, `Type`/`Status` get their enum's first option, timestamp columns get
the current time, text columns get the empty string. -/
def loadedDefault (now : String) (col : String) : Cell :=
  if col = "ID" then Cell.num 0
  else if col = "Impact" ∨ col = "Complexity" ∨ col = "Score" then Cell.num 5
  else if col = "Type" then Cell.str "Enabler"
  else if col = "Status" then Cell.str "Idea"
  else if col = "Created" ∨ col = "Modified" then Cell.str now
  else Cell.str ""

theorem loadCell_missing (cols0 : List String) (now : String)
    (r : String → Cell) (c : String) (hC : c ∈ COLUMNS) (hc0 : ¬ c ∈ cols0) :
    loadCell cols0 now r c = loadedDefault now c := by
  have hfil : c ∈ cols0 ++ COLUMNS.filter (fun x => decide (¬ x ∈ cols0)) :=
    List.mem_append_right _ (List.mem_filter.mpr ⟨hC, by simpa using hc0⟩)
  simp only [COLUMNS, List.mem_cons, List.not_mem_nil, or_false] at hC
  rcases hC with rfl | rfl | rfl | rfl | rfl | rfl | rfl | rfl | rfl | rfl | rfl | rfl <;>
    simp [loadCell, rawDefault, fillCell, fillnaDefault, loadedDefault,
      coerceCell, TYPE_OPTIONS, STATUS_OPTIONS, hc0, hfil, COLUMNS]

theorem loadCell_present_numeric (cols0 : List String) (now : String)
    (r : String → Cell) (c : String) (hc : c ∈ cols0)
    (h3 : c = "Impact" ∨ c = "Complexity" ∨ c = "Score") :
    loadCell cols0 now r c = fillCell c (coerceCell (r c)) := by
  have hfil : c ∈ cols0 ++ COLUMNS.filter (fun x => decide (¬ x ∈ cols0)) :=
    List.mem_append_left _ hc
  simp [loadCell, hc, h3, hfil]

theorem forall₂_map_self (R : α → β → Prop) (f : α → β) (l : List α)
    (h : ∀ a ∈ l, R a (f a)) : List.Forall₂ R l (l.map f) := by
  induction l with
  | nil => exact List.Forall₂.nil
  | cons a as ih =>
    exact List.Forall₂.cons (h a (by simp)) (ih fun x hx => h x (by simp [hx]))

theorem fillCell_ne_null (c : String) (v : Cell) (h : ¬ v = Cell.null) :
    fillCell c v = v := by
  unfold fillCell
  cases hfd : fillnaDefault c <;> simp [h]

/-- C8 (amended): `load_data` produces a table containing every declared
column and drops no row; a column entirely missing from the input is
backfilled with its type-specific default — `Impact`/`Complexity`/`Score`
with `5.0`, `ID` with `0`, `Status`/`Type` with the first option of their
enum, timestamp columns with the current time, text columns with the empty
string — and non-numeric `Impact`/`Complexity`/`Score` values are coerced
to missing and then defaulted to `5.0` (numeric ones are rounded to one
decimal). -/
theorem load_data_normalize_spec (now : String) (t : Table) :
    (∀ c ∈ COLUMNS, c ∈ (load_data now t).cols) ∧
    (load_data now t).rows.length = t.rows.length ∧
    (∀ c ∈ COLUMNS, ¬ c ∈ t.cols →
      ∀ r ∈ (load_data now t).rows, r c = loadedDefault now c) ∧
    (∀ c, (c = "Impact" ∨ c = "Complexity" ∨ c = "Score") → c ∈ t.cols →
      List.Forall₂ (fun r r' : String → Cell =>
        (∀ q, r c = Cell.num q → r' c = Cell.num (round1 q)) ∧
        ((r c = Cell.null ∨ ∃ s, r c = Cell.str s) → r' c = Cell.num 5))
        t.rows (load_data now t).rows) := by
  refine ⟨?_, ?_, ?_, ?_⟩
  · intro c hc
    rw [load_data_cols]
    by_cases h : c ∈ t.cols
    · exact List.mem_append_left _ h
    · exact List.mem_append_right _ (List.mem_filter.mpr ⟨hc, by simpa using h⟩)
  · rw [load_data_rows, List.length_map]
  · intro c hc hc0 r hr
    rw [load_data_rows] at hr
    rcases List.mem_map.mp hr with ⟨r0, _, rfl⟩
    exact loadCell_missing t.cols now r0 c hc hc0
  · intro c h3 hc
    rw [load_data_rows]
    refine forall₂_map_self _ _ _ ?_
    intro r _
    rw [loadCell_present_numeric t.cols now r c hc h3]
    constructor
    · intro q hq
      rw [hq]
      show fillCell c (Cell.num (round1 q)) = Cell.num (round1 q)
      exact fillCell_ne_null c _ (by simp)
    · intro hcase
      have hnull : coerceCell (r c) = Cell.null := by
        rcases hcase with h | ⟨s, h⟩ <;> simp [h, coerceCell]
      rw [hnull]
      rcases h3 with rfl | rfl | rfl <;> simp [fillCell, fillnaDefault]

/-- A raw input row whose `Impact` is non-numeric text. -/
def w8row : String → Cell :=
  fun c => if c = "Opportunity" then Cell.str "x"
    else if c = "Impact" then Cell.str "high" else Cell.null

/-- A raw input table missing most declared columns. -/
def w8table : Table := { cols := ["Opportunity", "Impact"], rows := [w8row] }

/-- Witness for C8 at `w8table`: the missing `Area` column exists after the
load and its cell carries the text default. -/
theorem load_data_normalize_spec_witness :
    "Area" ∈ (load_data "T" w8table).cols ∧
    (load_data "T" w8table).rows.length = w8table.rows.length ∧
    loadCell w8table.cols "T" w8row "Area" = loadedDefault "T" "Area" :=
  ⟨(load_data_normalize_spec "T" w8table).1 "Area" (by decide),
   (load_data_normalize_spec "T" w8table).2.1,
   (load_data_normalize_spec "T" w8table).2.2.1 "Area" (by decide) (by decide)
     (loadCell w8table.cols "T" w8row)
     (by rw [load_data_rows]; exact List.mem_map_of_mem _ (by simp [w8table]))⟩

/-- A raw input table missing the `ID` column. -/
def w8idTable : Table := { cols := ["Opportunity"], rows := [fun _ => Cell.str "x"] }

/-- Counterexample to C8 as stated: `ID` is a numeric column, but a missing
`ID` column is backfilled with `0`, not with the claimed numeric default
`5.0`. -/
theorem load_data_id_default_counterexample :
    (load_data "T" w8idTable).rows.map (fun r => r "ID") = [Cell.num 0] ∧
    Cell.num (0:ℚ) ≠ Cell.num 5 := by
  exact ⟨by decide, by decide⟩

/-- C3 (amended): a stored `Score` inconsistent with the formula is not
auto-corrected on load — `load_data` only rounds a numeric stored `Score`
to one decimal, never recomputing it from `Impact`/`Complexity` — and it is
not corrected by the next reorder either: `refresh_data` preserves the
stored Score values (as a multiset); Score is only recomputed on an
explicit create/update. -/
theorem score_not_recomputed (now t1 : String) (t : Table) (l : List Record) :
    ("Score" ∈ t.cols →
      List.Forall₂ (fun r r' : String → Cell =>
        ∀ q, r "Score" = Cell.num q → r' "Score" = Cell.num (round1 q))
        t.rows (load_data now t).rows) ∧
    ((refresh_data t1 l).map fun r => r.score).Perm (l.map fun r => r.score) := by
  constructor
  · intro hsc
    rw [load_data_rows]
    refine forall₂_map_self _ _ _ ?_
    intro r _ q hq
    rw [loadCell_present_numeric t.cols now r "Score" hsc (by simp), hq]
    show fillCell "Score" (Cell.num (round1 q)) = Cell.num (round1 q)
    exact fillCell_ne_null _ _ (by simp)
  · unfold refresh_data sortValuesDesc
    rw [assignIds_map_score, List.map_reverse]
    refine (List.reverse_perm _).trans ?_
    refine ((sortBy_perm scoreLe l.reverse).map _).trans ?_
    rw [List.map_reverse]
    exact List.reverse_perm _

/-- A fully-populated row whose stored Score `9.9` disagrees with
`compute_score 5 5 = 5`. -/
def inconsRow : String → Cell :=
  fun c => if c = "Score" then Cell.num (99/10)
    else if c = "Impact" then Cell.num 5
    else if c = "Complexity" then Cell.num 5 else Cell.str ""

/-- A table holding exactly `inconsRow`, with all declared columns. -/
def inconsTable : Table := { cols := COLUMNS, rows := [inconsRow] }

/-- Witness for C3 at the inconsistent record. -/
theorem score_not_recomputed_witness :
    loadCell inconsTable.cols "T" inconsRow "Score" = Cell.num (round1 (99/10)) ∧
    ((refresh_data "t1" [mkRec "X" (99/10)]).map fun r => r.score).Perm
      ([mkRec "X" (99/10)].map fun r => r.score) := by
  constructor
  · have h := (score_not_recomputed "T" "t1" inconsTable [mkRec "X" (99/10)]).1
      (by decide)
    rw [load_data_rows] at h
    simp only [inconsTable, List.map_cons, List.map_nil] at h
    exact (List.forall₂_cons.mp h).1 (99/10) (by simp [inconsRow])
  · exact (score_not_recomputed "T" "t1" inconsTable [mkRec "X" (99/10)]).2

/-- Counterexample to C3 as stated: the record with Impact 5, Complexity 5
and stored Score 9.9 keeps Score 9.9 through both `load_data` and the next
`refresh_data`, although `compute_score 5 5 = 5` — reorder does not
recompute Score. -/
theorem score_not_recomputed_counterexample :
    compute_score 5 5 = 5 ∧
    (load_data "T" inconsTable).rows.map (fun r => r "Score") = [Cell.num (99/10)] ∧
    (refresh_data "t1" [mkRec "X" (99/10)]).map (fun r => r.score) = [99/10] ∧
    (99/10 : ℚ) ≠ (5 : ℚ) := by
  have h9 : round1 (99/10) = 99/10 := by norm_num [round1, roundHalfEven]
  refine ⟨by norm_num [compute_score, round1, roundHalfEven], ?_, ?_, by norm_num⟩
  · rw [load_data_rows]
    simp only [inconsTable, List.map_cons, List.map_nil]
    rw [loadCell_present_numeric _ _ _ _ (by decide) (by simp)]
    rw [show inconsRow "Score" = Cell.num (99/10) by simp [inconsRow]]
    rw [show coerceCell (Cell.num (99/10)) = Cell.num (round1 (99/10)) from rfl, h9,
      fillCell_ne_null _ _ (by simp)]
  · simp [refresh_data, sortValuesDesc, sortBy, insertBy, assignIds, mkRec]

/-! ## Backup folder, `create_backup` and retention pruning

The backup folder is a list of (file name, modification time) pairs.  File
names `data_backup_{YYYYMMDD_HHMMSS}.csv` are injective in the timestamp at
one-second granularity, so a backup's name is derived from its `Nat`
time. -/

/-- A directory of CSV files: (name, mtime) pairs. -/
abbrev FSys : Type := List (String × Nat)

/-- `f"data_backup_{timestamp}.csv"` (heatmap.py line 115). -/
def backupName (t : Nat) : String := "data_backup_" ++ toString t ++ ".csv"

/-- `df.to_csv(path)`: create or overwrite a file; its mtime becomes now. -/
def writeFile (fs : FSys) (name : String) (t : Nat) : FSys :=
  (fs.filter fun e => ¬ e.1 = name) ++ [(name, t)]

/-- The comparison of `sorted(..., key=os.path.getmtime, reverse=True)`:
stable descending by mtime. -/
def mtimeGe (a b : String × Nat) : Bool := b.2 ≤ a.2

def sortDescByMtime (fs : FSys) : FSys := sortBy mtimeGe fs

/-- `old_backup.unlink()`: may raise (modelled by the `fail` oracle). -/
def unlinkE (fail : String → Bool) (fs : FSys) (name : String) :
    Except Unit FSys :=
  if fail name then Except.error () else Except.ok (fs.filter fun e => ¬ e.1 = name)

/-- The `try: old_backup.unlink() except: pass` at lines 121-124. -/
def tryUnlink (fail : String → Bool) (fs : FSys) (name : String) : FSys :=
  match unlinkE fail fs name with
  | Except.ok fs' => fs'
  | Except.error _ => fs

/-- heatmap.py lines 112-124: write the snapshot, then delete every `*.csv`
beyond the 10 most recent by mtime, swallowing deletion failures. -/
def create_backup (fail : String → Bool) (t : Nat) (fs : FSys) :
    Except Unit FSys :=
  let fs1 := writeFile fs (backupName t) t
  let victims := ((sortDescByMtime fs1).drop 10).map Prod.fst
  Except.ok (victims.foldl (tryUnlink fail) fs1)

def neverFail : String → Bool := fun _ => false

/-- A sequence of successive `create_backup` calls. -/
def runBackups (fail : String → Bool) (ts : List Nat) (fs : FSys) : FSys :=
  ts.foldl
    (fun acc t =>
      match create_backup fail t acc with
      | Except.ok f => f
      | Except.error _ => acc)
    fs

theorem foldl_tryUnlink_neverFail (ns : List String) (fs : FSys) :
    ns.foldl (tryUnlink neverFail) fs =
      fs.filter (fun e => decide (¬ e.1 ∈ ns)) := by
  induction ns generalizing fs with
  | nil => simp [List.filter_eq_self]
  | cons n ns ih =>
    show ns.foldl (tryUnlink neverFail) (tryUnlink neverFail fs n) = _
    rw [show tryUnlink neverFail fs n = fs.filter (fun e => ¬ e.1 = n) from rfl, ih,
      List.filter_filter]
    refine List.filter_congr ?_
    intro e _
    by_cases h1 : e.1 = n <;> by_cases h2 : e.1 ∈ ns <;>
      simp [h1, h2, List.mem_cons]

theorem create_backup_pruned (t : Nat) (fs : FSys)
    (hnd : ((writeFile fs (backupName t) t).map Prod.fst).Nodup) :
    create_backup neverFail t fs =
      Except.ok ((writeFile fs (backupName t) t).filter
        (fun e => decide (e ∈ (sortDescByMtime (writeFile fs (backupName t) t)).take 10))) := by
  show Except.ok ((((sortDescByMtime (writeFile fs (backupName t) t)).drop 10).map
      Prod.fst).foldl (tryUnlink neverFail) (writeFile fs (backupName t) t)) = _
  rw [foldl_tryUnlink_neverFail]
  congr 1
  refine List.filter_congr ?_
  intro e he
  refine decide_eq_decide.mpr ?_
  have hperm : (sortDescByMtime (writeFile fs (backupName t) t)).Perm
      (writeFile fs (backupName t) t) := sortBy_perm _ _
  have hndL : ((sortDescByMtime (writeFile fs (backupName t) t)).map Prod.fst).Nodup :=
    ((hperm.map Prod.fst).nodup_iff).mpr hnd
  have heL : e ∈ sortDescByMtime (writeFile fs (backupName t) t) :=
    hperm.mem_iff.mpr he
  set L := sortDescByMtime (writeFile fs (backupName t) t) with hL
  have hsplit : L.take 10 ++ L.drop 10 = L := List.take_append_drop 10 L
  have hndsplit : ((L.take 10).map Prod.fst).Nodup ∧
      ((L.drop 10).map Prod.fst).Nodup ∧
      List.Disjoint ((L.take 10).map Prod.fst) ((L.drop 10).map Prod.fst) := by
    have : (((L.take 10) ++ (L.drop 10)).map Prod.fst).Nodup := by
      rw [hsplit]; exact hndL
    rw [List.map_append, List.nodup_append] at this
    exact this
  constructor
  · intro hnin
    have : e ∈ L.take 10 ++ L.drop 10 := hsplit.symm ▸ heL
    rcases List.mem_append.mp this with h10 | h10
    · exact h10
    · exact absurd (List.mem_map_of_mem Prod.fst h10) hnin
  · intro h10 hvic
    rcases List.mem_map.mp hvic with ⟨e', he', hfst⟩
    exact hndsplit.2.2 (hfst ▸ List.mem_map_of_mem Prod.fst h10)
      (List.mem_map_of_mem Prod.fst he')

/-- C6: `create_backup` writes the snapshot and prunes the folder down to
the 10 files that are most recent by modification time; deletion failures
are swallowed, so `create_backup` never returns an error, whatever the
unlink oracle does; and 15 successive snapshot creations starting from an
empty folder leave exactly the 10 most recently created snapshots. -/
theorem create_backup_retention :
    (∀ fail t fs, ∃ fs', create_backup fail t fs = Except.ok fs') ∧
    (∀ t fs, ((writeFile fs (backupName t) t).map Prod.fst).Nodup →
      create_backup neverFail t fs =
        Except.ok ((writeFile fs (backupName t) t).filter
          (fun e => decide (e ∈ (sortDescByMtime (writeFile fs (backupName t) t)).take 10)))) ∧
    runBackups neverFail [1, 2, 3, 4, 5, 6, 7, 8, 9, 10, 11, 12, 13, 14, 15] [] =
      [(backupName 6, 6), (backupName 7, 7), (backupName 8, 8), (backupName 9, 9),
       (backupName 10, 10), (backupName 11, 11), (backupName 12, 12),
       (backupName 13, 13), (backupName 14, 14), (backupName 15, 15)] ∧
    (runBackups neverFail [1, 2, 3, 4, 5, 6, 7, 8, 9, 10, 11, 12, 13, 14, 15] []).length = 10 := by
  refine ⟨fun fail t fs => ⟨_, rfl⟩, create_backup_pruned, by decide, by decide⟩

/-- Witness for C6: one `create_backup` into an empty folder, with the
prune characterization's Nodup hypothesis discharged concretely. -/
theorem create_backup_retention_witness :
    create_backup neverFail 3 [] =
      Except.ok ((writeFile [] (backupName 3) 3).filter
        (fun e => decide (e ∈ (sortDescByMtime (writeFile [] (backupName 3) 3)).take 10))) :=
  create_backup_retention.2.1 3 [] (by decide)

/-! ## Session state and the settings-page flows -/

/-- The session state threaded through the flows: the in-memory record set
(`st.session_state.data`), the durable store (`data/data.csv`; `none` means
the file does not exist), the backup folder, the save counter and the
configured backup frequency. -/
structure SysState where
  data : Table
  store : Option Table
  backups : FSys
  counter : Nat
  freq : Nat

/-- `df.empty` (a frame with no rows). -/
def dfEmpty (t : Table) : Bool := t.rows.isEmpty

/-- `create_backup` as the caller sees it: exceptions cannot escape. -/
def create_backup_run (fail : String → Bool) (t : Nat) (fs : FSys) : FSys :=
  match create_backup fail t fs with
  | Except.ok f => f
  | Except.error _ => fs

/-- heatmap.py lines 164-190, success path: write the store, bump the save
counter, and when it reaches the configured threshold write an automatic
backup (which prunes) and reset the counter. -/
def save_data (now : Nat) (st : SysState) : SysState :=
  let st1 := { st with store := some st.data, counter := st.counter + 1 }
  if st1.freq ≤ st1.counter then
    { st1 with backups := create_backup_run neverFail now st1.backups, counter := 0 }
  else st1

def preRestoreName (t : Nat) : String := "pre_restore_backup_" ++ toString t ++ ".csv"

def preUploadName (t : Nat) : String := "pre_upload_backup_" ++ toString t ++ ".csv"

def finalResetName (t : Nat) : String := "final_backup_before_reset_" ++ toString t ++ ".csv"

/-- heatmap.py lines 1138-1142: before restoring a stored snapshot, the
current set is snapshotted iff the data file exists (no emptiness check, no
pruning). -/
def preRestoreStep (now : Nat) (st : SysState) : SysState :=
  if st.store.isSome then
    { st with backups := writeFile st.backups (preRestoreName now) now }
  else st

/-- heatmap.py lines 1134-1148: restore a stored snapshot.  The snapshot
replaces the live set verbatim (no validation, no normalization) and is
persisted via `save_data`. -/
def restoreSelected (now : Nat) (snapshot : Table) (st : SysState) : SysState :=
  save_data now { preRestoreStep now st with data := snapshot }

/-- heatmap.py lines 1171-1175: before an upload-restore, the current set is
snapshotted iff the data file exists and the set is non-empty (before the
uploaded file is even read, and without pruning). -/
def preUploadStep (now : Nat) (st : SysState) : SysState :=
  if st.store.isSome ∧ dfEmpty st.data = false then
    { st with backups := writeFile st.backups (preUploadName now) now }
  else st

/-- heatmap.py line 1181:
`missing_cols = [col for col in COLUMNS if col not in uploaded_df.columns]`. -/
def missingCols (uploaded : Table) : List String :=
  COLUMNS.filter (fun c => decide (¬ c ∈ uploaded.cols))

inductive RestoreResult
  | schemaMismatch (missing : List String)
  | restored
  | previewOnly
deriving DecidableEq, Repr

/-- heatmap.py lines 1169-1194: the restore-from-upload flow.  The safety
snapshot is written first; then the columns are validated; on missing
columns an error naming them is reported and nothing else happens; on valid
input and confirmation the uploaded set replaces the live set and is
persisted. -/
def uploadRestore (now : Nat) (uploaded : Table) (confirm : Bool)
    (st : SysState) : SysState × RestoreResult :=
  let st1 := preUploadStep now st
  if missingCols uploaded = [] then
    if confirm then
      (save_data now { st1 with data := uploaded }, RestoreResult.restored)
    else (st1, RestoreResult.previewOnly)
  else (st1, RestoreResult.schemaMismatch (missingCols uploaded))

/-- heatmap.py lines 1214-1218: before a reset, the current set is
snapshotted iff the data file exists and the set is non-empty (no
pruning). -/
def finalResetStep (now : Nat) (st : SysState) : SysState :=
  if st.store.isSome ∧ dfEmpty st.data = false then
    { st with backups := writeFile st.backups (finalResetName now) now }
  else st

/-- heatmap.py lines 1212-1226: reset all data — final backup, empty the
live set, delete the data file, zero the counter. -/
def resetAll (now : Nat) (st : SysState) : SysState :=
  { finalResetStep now st with
    data := { cols := COLUMNS, rows := [] }, store := none, counter := 0 }

theorem preUploadStep_data (now : Nat) (st : SysState) :
    (preUploadStep now st).data = st.data := by
  unfold preUploadStep; split <;> rfl

theorem preUploadStep_store (now : Nat) (st : SysState) :
    (preUploadStep now st).store = st.store := by
  unfold preUploadStep; split <;> rfl

theorem preUploadStep_counter (now : Nat) (st : SysState) :
    (preUploadStep now st).counter = st.counter := by
  unfold preUploadStep; split <;> rfl

theorem preUploadStep_backups (now : Nat) (st : SysState) :
    (preUploadStep now st).backups =
      if st.store.isSome ∧ dfEmpty st.data = false
      then writeFile st.backups (preUploadName now) now else st.backups := by
  unfold preUploadStep; split <;> rfl

/-- C4: an upload-restore whose candidate set misses declared columns fails
with a schema-mismatch error listing exactly the missing declared columns,
and leaves the in-memory set, the durable store and the save counter
untouched. -/
theorem uploadRestore_invalid (now : Nat) (uploaded : Table) (confirm : Bool)
    (st : SysState) (hmiss : missingCols uploaded ≠ []) :
    uploadRestore now uploaded confirm st =
      (preUploadStep now st, RestoreResult.schemaMismatch (missingCols uploaded)) := by
  show (if missingCols uploaded = [] then _ else _) = _
  rw [if_neg hmiss]

theorem uploadRestore_schemaMismatch_spec (now : Nat) (uploaded : Table)
    (confirm : Bool) (st : SysState) (hmiss : missingCols uploaded ≠ []) :
    (uploadRestore now uploaded confirm st).2 =
      RestoreResult.schemaMismatch (missingCols uploaded) ∧
    (∀ c, c ∈ missingCols uploaded ↔ (c ∈ COLUMNS ∧ ¬ c ∈ uploaded.cols)) ∧
    (uploadRestore now uploaded confirm st).1.data = st.data ∧
    (uploadRestore now uploaded confirm st).1.store = st.store ∧
    (uploadRestore now uploaded confirm st).1.counter = st.counter := by
  rw [uploadRestore_invalid now uploaded confirm st hmiss]
  exact ⟨rfl, fun c => by simp [missingCols, List.mem_filter],
    preUploadStep_data now st, preUploadStep_store now st,
    preUploadStep_counter now st⟩

/-- An uploaded table missing exactly the `Area` column. -/
def w4upload : Table :=
  { cols := ["ID", "Opportunity", "Related to", "Type", "Topic",
             "Impact", "Complexity", "Score", "Status", "Created", "Modified"],
    rows := [] }

/-- An initial session state with no data file. -/
def wState : SysState :=
  { data := { cols := COLUMNS, rows := [] }, store := none, backups := [],
    counter := 0, freq := 5 }

/-- Witness for C4: the upload missing `Area` fails naming exactly `Area`
and changes nothing. -/
theorem uploadRestore_schemaMismatch_spec_witness :
    missingCols w4upload = ["Area"] ∧
    (uploadRestore 7 w4upload true wState).2 =
      RestoreResult.schemaMismatch (missingCols w4upload) ∧
    ("Area" ∈ missingCols w4upload ↔ ("Area" ∈ COLUMNS ∧ ¬ "Area" ∈ w4upload.cols)) ∧
    (uploadRestore 7 w4upload true wState).1.data = wState.data ∧
    (uploadRestore 7 w4upload true wState).1.store = wState.store ∧
    (uploadRestore 7 w4upload true wState).1.counter = wState.counter := by
  have h := uploadRestore_schemaMismatch_spec 7 w4upload true wState (by decide)
  exact ⟨by decide, h.1, h.2.1 "Area", h.2.2.1, h.2.2.2.1, h.2.2.2.2⟩

/-- C5 (amended): the pre-upload safety snapshot is written before the
uploaded set is validated — whenever the durable store exists and the
current set is non-empty, the snapshot is created even when validation then
fails; on validation failure no state is written (live set, durable store
and counter unchanged). -/
theorem upload_backup_before_validation (now : Nat) (uploaded : Table)
    (confirm : Bool) (st : SysState) (hmiss : missingCols uploaded ≠ []) :
    (uploadRestore now uploaded confirm st).1.data = st.data ∧
    (uploadRestore now uploaded confirm st).1.store = st.store ∧
    (uploadRestore now uploaded confirm st).1.backups =
      (if st.store.isSome ∧ dfEmpty st.data = false
       then writeFile st.backups (preUploadName now) now else st.backups) := by
  rw [uploadRestore_invalid now uploaded confirm st hmiss]
  exact ⟨preUploadStep_data now st, preUploadStep_store now st,
    preUploadStep_backups now st⟩

/-- A session state whose data file exists and whose set is non-empty. -/
def w5st : SysState :=
  { data := inconsTable, store := some inconsTable, backups := [],
    counter := 0, freq := 5 }

/-- Witness for C5 (amended) at a concrete state. -/
theorem upload_backup_before_validation_witness :
    (uploadRestore 7 w4upload true w5st).1.data = w5st.data ∧
    (uploadRestore 7 w4upload true w5st).1.store = w5st.store ∧
    (uploadRestore 7 w4upload true w5st).1.backups =
      (if w5st.store.isSome ∧ dfEmpty w5st.data = false
       then writeFile w5st.backups (preUploadName 7) 7 else w5st.backups) :=
  upload_backup_before_validation 7 w4upload true w5st (by decide)

/-- Counterexample to C5 as stated: with an existing data file and a
non-empty set, a failed-validation upload still creates a backup file. -/
theorem upload_backup_before_validation_counterexample :
    (uploadRestore 7 w4upload true w5st).2 =
      RestoreResult.schemaMismatch ["Area"] ∧
    (uploadRestore 7 w4upload true w5st).1.backups = [(preUploadName 7, 7)] ∧
    w5st.backups = [] := by
  refine ⟨by decide, ?_, rfl⟩
  show (preUploadStep 7 w5st).backups = _
  rw [preUploadStep_backups, if_pos (by decide)]
  rfl

theorem save_data_eq (now : Nat) (st : SysState) :
    save_data now st =
      (if st.freq ≤ st.counter + 1 then
        { st with store := some st.data, counter := 0, backups := create_backup_run neverFail now st.backups }
       else { st with store := some st.data, counter := st.counter + 1 }) := rfl

theorem save_data_data (now : Nat) (st : SysState) :
    (save_data now st).data = st.data := by
  rw [save_data_eq]; split <;> rfl

theorem save_data_store (now : Nat) (st : SysState) :
    (save_data now st).store = some st.data := by
  rw [save_data_eq]; split <;> rfl

theorem save_data_backups_small (now : Nat) (st : SysState)
    (h : st.counter + 1 < st.freq) : (save_data now st).backups = st.backups := by
  rw [save_data_eq, if_neg (by omega)]

theorem preRestoreStep_counter (now : Nat) (st : SysState) :
    (preRestoreStep now st).counter = st.counter := by
  unfold preRestoreStep; split <;> rfl

theorem preRestoreStep_freq (now : Nat) (st : SysState) :
    (preRestoreStep now st).freq = st.freq := by
  unfold preRestoreStep; split <;> rfl

theorem preRestoreStep_backups (now : Nat) (st : SysState) :
    (preRestoreStep now st).backups =
      if st.store.isSome then writeFile st.backups (preRestoreName now) now
      else st.backups := by
  unfold preRestoreStep; split <;> rfl

theorem restoreSelected_backups_small (now : Nat) (snapshot : Table)
    (st : SysState) (h : st.counter + 1 < st.freq) :
    (restoreSelected now snapshot st).backups =
      (if st.store.isSome then writeFile st.backups (preRestoreName now) now
       else st.backups) := by
  rw [show restoreSelected now snapshot st =
    save_data now { preRestoreStep now st with data := snapshot } from rfl,
    save_data_backups_small]
  · show (preRestoreStep now st).backups = _
    rw [preRestoreStep_backups]
  · show (preRestoreStep now st).counter + 1 < (preRestoreStep now st).freq
    rw [preRestoreStep_counter, preRestoreStep_freq]
    exact h

/-- C9: restoring a stored snapshot performs no schema validation and no
normalization — for every snapshot (also one missing declared columns), the
live set is replaced verbatim by the snapshot and the snapshot is persisted
as the new durable store; and the pre-restore safety backup of the current
set is written exactly when the durable store file exists (the backups
statement is made below the auto-backup threshold, where `save_data` leaves
the folder alone). -/
theorem restoreSelected_spec (now : Nat) (snapshot : Table) (st : SysState) :
    (restoreSelected now snapshot st).data = snapshot ∧
    (restoreSelected now snapshot st).store = some snapshot ∧
    (st.counter + 1 < st.freq →
      (restoreSelected now snapshot st).backups =
        (if st.store.isSome then writeFile st.backups (preRestoreName now) now
         else st.backups)) := by
  refine ⟨?_, ?_, ?_⟩
  · rw [show restoreSelected now snapshot st =
      save_data now { preRestoreStep now st with data := snapshot } from rfl,
      save_data_data]
  · rw [show restoreSelected now snapshot st =
      save_data now { preRestoreStep now st with data := snapshot } from rfl,
      save_data_store]
  · exact restoreSelected_backups_small now snapshot st

/-- A snapshot missing all declared columns except `Opportunity`. -/
def w9snap : Table := { cols := ["Opportunity"], rows := [] }

/-- Witness for C9: restoring a column-deficient snapshot replaces the live
set verbatim, and the pre-restore backup is written since the store file
exists. -/
theorem restoreSelected_spec_witness :
    (restoreSelected 7 w9snap w5st).data = w9snap ∧
    (restoreSelected 7 w9snap w5st).store = some w9snap ∧
    (restoreSelected 7 w9snap w5st).backups =
      (if w5st.store.isSome then writeFile w5st.backups (preRestoreName 7) 7
       else w5st.backups) :=
  ⟨(restoreSelected_spec 7 w9snap w5st).1,
   (restoreSelected_spec 7 w9snap w5st).2.1,
   (restoreSelected_spec 7 w9snap w5st).2.2 (by decide)⟩

theorem writeFile_fresh (fs : FSys) (name : String) (t : Nat)
    (h : ∀ e ∈ fs, ¬ e.1 = name) : writeFile fs name t = fs ++ [(name, t)] := by
  unfold writeFile
  congr 1
  refine List.filter_eq_self.mpr ?_
  intro a ha
  simpa using h a ha

/-- A session state whose backup folder already holds 10 snapshots. -/
def w10st : SysState :=
  { data := inconsTable, store := some inconsTable,
    backups := (List.range 10).map (fun k => (backupName (k + 1), k + 1)),
    counter := 0, freq := 5 }

/-- C10: the pre-restore, pre-upload and final-before-reset safety backups
are written directly, with no pruning: each such operation appends its
snapshot to the backup folder and deletes nothing (the restore statement is
below the auto-backup threshold, where the counter-triggered backup — the
only caller of pruning — does not run; the failed-upload and reset paths
never reach `save_data` at all); so with 10 snapshots already present, a
reset leaves 11 files in the folder. -/
theorem safety_backup_writes (now : Nat) (st : SysState) :
    ((∀ e ∈ st.backups, ¬ e.1 = finalResetName now) →
      (resetAll now st).backups =
        (if st.store.isSome ∧ dfEmpty st.data = false
         then st.backups ++ [(finalResetName now, now)] else st.backups)) ∧
    (∀ snapshot, st.counter + 1 < st.freq →
      (∀ e ∈ st.backups, ¬ e.1 = preRestoreName now) →
      (restoreSelected now snapshot st).backups =
        (if st.store.isSome then st.backups ++ [(preRestoreName now, now)]
         else st.backups)) ∧
    (∀ uploaded confirm, missingCols uploaded ≠ [] →
      (∀ e ∈ st.backups, ¬ e.1 = preUploadName now) →
      (uploadRestore now uploaded confirm st).1.backups =
        (if st.store.isSome ∧ dfEmpty st.data = false
         then st.backups ++ [(preUploadName now, now)] else st.backups)) ∧
    (resetAll 20 w10st).backups.length = 11 := by
  refine ⟨?_, ?_, ?_, by decide⟩
  · intro h
    show (finalResetStep now st).backups = _
    unfold finalResetStep
    split
    · exact writeFile_fresh _ _ _ h
    · rfl
  · intro snapshot hcnt h
    rw [restoreSelected_backups_small now snapshot st hcnt]
    split
    · exact writeFile_fresh _ _ _ h
    · rfl
  · intro uploaded confirm hmiss h
    rw [uploadRestore_invalid now uploaded confirm st hmiss]
    show (preUploadStep now st).backups = _
    rw [preUploadStep_backups]
    split
    · exact writeFile_fresh _ _ _ h
    · rfl

/-- Witness for C10: a reset on a folder already holding 10 snapshots
appends an 11th and deletes none. -/
theorem safety_backup_writes_witness :
    (resetAll 20 w10st).backups =
      (if w10st.store.isSome ∧ dfEmpty w10st.data = false
       then w10st.backups ++ [(finalResetName 20, 20)] else w10st.backups) ∧
    (resetAll 20 w10st).backups.length = 11 :=
  ⟨(safety_backup_writes 20 w10st).1 (by decide),
   (safety_backup_writes 20 w10st).2.2.2⟩

end Heatmap
